import Mathlib

/-!
Verification development for the citehound core: a shallow embedding of the
probabilistic record-linkage pass (`citehound/__init__.py`,
`CitehoundManager.link_sets_of_entities`), the transactional batch committer
(`citehound/batchprocess.py`, `OGMTransactionBatch`), and the temporal MeSH
tree reconciliation (`citehound/datainput/mesh.py`,
`MeSHLongitudinalDataItemReader.read_archive` and
`MeSHLongitudinalDataItemInsert.on_end_extract`).

Conventions of the embedding:
* Python dictionaries that are only looked up, inserted into and iterated are
  modelled as association lists (`List (key × value)`) in insertion order, or,
  where only pointwise lookup is ever observed, as functions into `Option`.
* Python floats (`coverage`, `cutoff`, similarity ratios) are modelled as `ℚ`.
* Fallible Python code (statements that can raise `IndexError` / `ValueError` /
  `KeyError`) is modelled with `Except` / `Option`.
* External collaborators (the Neo4j store, `difflib.get_close_matches`, the
  `re`-based splitter, the preprocessing callable) are parameters of the
  embedded functions; the repository code only observes their outputs.
-/

/-! ## Batch committer: `citehound/batchprocess.py`, `OGMTransactionBatch` -/

/-- State of `OGMTransactionBatch` (batchprocess.py lines 32-41): a chunk size
`batch_size` (Python default 2048) and the internal buffer `self._batch` to
which `add_item` appends. `α` stands for the buffered instruction objects. -/
structure OGMTransactionBatch (α : Type) where
  batch_size : Nat
  batch : List α
deriving DecidableEq

/-- Embedding of `add_item` (batchprocess.py line 40): append to the buffer. -/
def OGMTransactionBatch.add_item (b : OGMTransactionBatch α) (an_item : α) :
    OGMTransactionBatch α :=
  ⟨b.batch_size, b.batch ++ [an_item]⟩

/-- Embedding of `chunk_indexes = list(range(0, len(self._batch), self.batch_size))`
(batchprocess.py line 54): the multiples of `bs` below `n`, in order. For
`bs > 0` these are exactly `0, bs, …, (⌈n/bs⌉-1)·bs` (Python `range` with step 0
raises `ValueError`; `apply` is only ever constructed with positive sizes). -/
def chunkIndexes (n bs : Nat) : List Nat :=
  (List.range ((n + bs - 1) / bs)).map (fun k => k * bs)

/-- Embedding of the chunking in `OGMTransactionBatch.apply` (batchprocess.py
lines 54-56): `batches = [self._batch[k:(k + self.batch_size)] for k in
chunk_indexes[:-1]]` followed by `batches.append(self._batch[chunk_indexes[-1]:])`.
A Python slice `l[k:k+bs]` is `(l.drop k).take bs` and `l[k:]` is `l.drop k`. -/
def applyBatches (l : List α) (bs : Nat) : List (List α) :=
  let ci := chunkIndexes l.length bs
  ((ci.dropLast).map (fun k => (l.drop k).take bs)) ++ [l.drop (ci.getLast?.getD 0)]

/-- Embedding of `OGMTransactionBatch.apply` (batchprocess.py lines 47-62).
Returns the list of committed chunks (each chunk is one `begin`/`commit`
transaction, run in buffer order) together with the state after the
`self._batch = []` reset. When the buffer is empty the guard
`if len(self._batch)>0` skips everything and nothing is committed. -/
def OGMTransactionBatch.apply (b : OGMTransactionBatch α) :
    List (List α) × OGMTransactionBatch α :=
  if 0 < b.batch.length then
    (applyBatches b.batch b.batch_size, ⟨b.batch_size, []⟩)
  else
    ([], b)

/-! ## Length trimming and linking: `citehound/__init__.py`,
`CitehoundManager.link_sets_of_entities` (lines 157-269) -/

/-- Errors of the Python runtime that the linking pass can actually raise:
`indexError` models the `IndexError` of `cumsum[0] = all_items_left_histogram[0][1] / max_sum`
(line 212) on an empty histogram; `valueError` models the `ValueError` that
`difflib.get_close_matches` raises for a cutoff outside `[0, 1]`; `keyError`
models the lookup `trimmed_items_left[comparison_result[0]]` (line 255) failing.
The module `citehound/exceptions.py` defines only `InsightException`,
`DataImportError` and `ManagerError`; no `ConfigurationError`,
`InvalidInputError`, `CommitError` or `InconsistentTemporalStateError` exists
anywhere in the repository. -/
inductive LinkError where
  | indexError
  | valueError
  | keyError
deriving DecidableEq

/-- Embedding of building a Python `set(...)` from a list and of the key-listing
of `collections.Counter`: the distinct elements in first-occurrence order.
(CPython iterates a `set` in an unspecified order; none of the verified
properties depends on the order, so first-occurrence order is fixed here.) -/
def collectFirst [DecidableEq α] (l : List α) : List α :=
  l.foldl (fun acc x => if x ∈ acc then acc else acc ++ [x]) []

/-- Embedding of `collections.Counter(list(map(lambda x: len(x), all_items_left))).items()`
(line 206): pairs `(length, multiplicity)` in first-occurrence order. -/
def lengthHistogram (items : List String) : List (Nat × Nat) :=
  let lens := items.map String.length
  (collectFirst lens).map (fun L => (L, lens.count L))

/-- Stable descending insertion by the second component: inserts `x` after every
element whose count is `≥ x`'s, so equal counts keep their original order. -/
def insertDesc (x : Nat × Nat) : List (Nat × Nat) → List (Nat × Nat)
  | [] => [x]
  | y :: ys => if y.2 < x.2 then x :: y :: ys else y :: insertDesc x ys

/-- Embedding of `sorted(..., key=lambda x: x[1], reverse=True)` (line 206):
a stable sort, descending on the count component, as Python's `sorted` —
elements are processed left to right and each is inserted after every already
placed entry of count `≥` its own, so equal counts keep first-occurrence
order. -/
def sortHistogram (h : List (Nat × Nat)) : List (Nat × Nat) :=
  h.foldl (fun acc x => insertDesc x acc) []

/-- Embedding of the cumulative-sum loop (lines 211-215): `cumsum[0] = h[0][1]/max_sum`
and `cumsum[m] = cumsum[m-1] + h[m][1]/max_sum`, written with the running
partial sum `prev` threaded through. -/
def cumsumFrom (prev max_sum : ℚ) : List (Nat × Nat) → List ℚ
  | [] => []
  | x :: xs => (prev + (x.2 : ℚ) / max_sum) :: cumsumFrom (prev + (x.2 : ℚ) / max_sum) max_sum xs

/-- Embedding of the index-picking loop (lines 217-219):
`m = 0; while cumsum[m] <= perc_entries_right and m < cumsum_len: m += 1`.
The second argument counts the remaining distance `cumsum_len - m`, so the
guard `m < cumsum_len` is exactly `0 < remaining`; inside the loop `m` is a
valid index of `cumsum`, so `getD` never takes its default. -/
def loopM (cumsum : List ℚ) (perc : ℚ) : Nat → Nat → Nat
  | m, 0 => m
  | m, remaining + 1 =>
    if cumsum.getD m 0 ≤ perc then loopM cumsum perc (m + 1) remaining else m

/-- Result of the length-trimming step (lines 205-224): the retained lengths
`trimmed_lengths` and the retained left-hand entries `trimmed_items_left`. -/
structure TrimResult (V : Type) where
  trimmed_lengths : List Nat
  trimmed_items_left : List (String × V)
deriving DecidableEq

/-- Embedding of lines 205-224 of `citehound/__init__.py`: histogram of the
left-hand key lengths, stable descending sort by frequency, cumulative sum,
the `while` loop picking `m`, `trimmed_lengths = list(map(lambda x: x[0],
all_items_left_histogram[:m]))` and the filtering of `dictLEFT`. On an empty
left-hand set the histogram is empty and line 212
(`cumsum[0] = all_items_left_histogram[0][1] / max_sum`) raises `IndexError`,
modelled as `Except.error .indexError`. -/
def trim_left_items (dictLEFT : List (String × V)) (perc_entries_right : ℚ) :
    Except LinkError (TrimResult V) :=
  let all_items_left := dictLEFT.map Prod.fst
  let all_items_left_histogram := sortHistogram (lengthHistogram all_items_left)
  match all_items_left_histogram with
  | [] => Except.error LinkError.indexError
  | h :: t =>
    let hist := h :: t
    let max_sum : ℚ := ((hist.map (fun x => (x.2 : ℚ))).sum)
    let cumsum := cumsumFrom 0 max_sum hist
    let cumsum_len := cumsum.length - 1
    let m := loopM cumsum perc_entries_right 0 cumsum_len
    let trimmed_lengths := (hist.take m).map Prod.fst
    Except.ok ⟨trimmed_lengths,
      dictLEFT.filter (fun kv => decide (kv.1.length ∈ trimmed_lengths))⟩

/-- One relationship-creation instruction emitted by the linking pass
(lines 261-263): `ItemRelationship(aRIGHTItem.associations, aLEFTItem,
{"process_id": session_id, "rel_label": relationship_label})`. The edge points
from the right-hand entity to the left-hand entity. `E` stands for the graph
entities returned by the two queries. -/
structure LinkEdge (E : Type) where
  src : E
  dst : E
  process_id : String
  rel_label : String
deriving DecidableEq

/-- Observable outcome of `link_sets_of_entities`: the instructions added to the
`OGMTransactionBatch` over the whole run (the periodic `batched_links.apply()`
every 1000 right-hand items and the final one commit exactly these, in order),
and `ret`, the value **returned** by the Python method. The method body has no
`return` statement, so it always returns `None`: `ret` is always `none`. -/
structure LinkResult (E : Type) where
  edges : List (LinkEdge E)
  ret : Option Nat
deriving DecidableEq

/-- Lookup in an association list, as a Python dict lookup `d[k]` (first
matching key; the dicts modelled here have distinct keys). -/
def assocLookup [DecidableEq κ] (k : κ) (l : List (κ × β)) : Option β :=
  (l.find? (fun kv => decide (kv.1 = k))).map Prod.snd

/-- Embedding of the body of the token loop (lines 248-263) for one token
`aKeyComponent`. `matcher` stands for `difflib.get_close_matches`
(query, candidate pool, cutoff); before doing any comparison difflib validates
its cutoff and raises `ValueError` unless `0 ≤ cutoff ≤ 1`, which is modelled
here since the call is the first point where an out-of-range cutoff surfaces.
If the match list is empty the code hits the `else: pass` branch (lines
264-267): the token is silently dropped, no count is kept. Otherwise the best
match `comparison_result[0]` selects the left-hand group
`trimmed_items_left[comparison_result[0]]` (a `KeyError` if absent — difflib
only ever returns members of the candidate pool) and one edge is emitted for
every right-hand entity × left-hand entity pair, right-major. -/
def compareToken (matcher : String → List String → ℚ → List String)
    (trimmed : TrimResult (List E)) (comparison_cutoff : ℚ)
    (session_id relationship_label : String) (right_entities : List E)
    (token : String) : Except LinkError (List (LinkEdge E)) :=
  if ¬ (0 ≤ comparison_cutoff ∧ comparison_cutoff ≤ 1) then
    Except.error LinkError.valueError
  else
    match matcher token (trimmed.trimmed_items_left.map Prod.fst) comparison_cutoff with
    | [] => Except.ok []
    | best :: _ =>
      match assocLookup best trimmed.trimmed_items_left with
      | none => Except.error LinkError.keyError
      | some left_entities =>
        Except.ok ((right_entities.map (fun r =>
          left_entities.map (fun l =>
            (⟨r, l, session_id, relationship_label⟩ : LinkEdge E)))).flatten)

/-- Folds `compareToken` over the deduplicated token list of one right-hand
item, concatenating the emitted edges in token order. -/
def processTokens (matcher : String → List String → ℚ → List String)
    (trimmed : TrimResult (List E)) (comparison_cutoff : ℚ)
    (session_id relationship_label : String) (right_entities : List E) :
    List String → Except LinkError (List (LinkEdge E))
  | [] => Except.ok []
  | t :: ts =>
    match compareToken matcher trimmed comparison_cutoff session_id
        relationship_label right_entities t with
    | Except.error e => Except.error e
    | Except.ok es =>
      match processTokens matcher trimmed comparison_cutoff session_id
          relationship_label right_entities ts with
      | Except.error e => Except.error e
      | Except.ok rest => Except.ok (es ++ rest)

/-- Embedding of the main loop over `dictRIGHT.items()` (lines 230-267).
For each right-hand item: apply `pre_processing_function` when given (line 239),
split into tokens (`splitRule.split`, line 243 — `splitter` stands for the
`re`-based splitter), keep the tokens whose length is among `trimmed_lengths`
as a set (line 245, deduplicated in first-occurrence order), and compare each
retained token. Edges accumulate in item order. -/
def processRightItems (matcher : String → List String → ℚ → List String)
    (splitter : String → List String) (preprocess : Option (String → String))
    (trimmed : TrimResult (List E)) (comparison_cutoff : ℚ)
    (session_id relationship_label : String) :
    List (String × List E) → Except LinkError (List (LinkEdge E))
  | [] => Except.ok []
  | (right_key, right_entities) :: rest =>
    let standardised_item_right :=
      match preprocess with
      | some f => f right_key
      | none => right_key
    let item_right_tokens := splitter standardised_item_right
    let item_right_tokens_to_compare :=
      collectFirst (item_right_tokens.filter
        (fun t => decide (t.length ∈ trimmed.trimmed_lengths)))
    match processTokens matcher trimmed comparison_cutoff session_id
        relationship_label right_entities item_right_tokens_to_compare with
    | Except.error e => Except.error e
    | Except.ok es =>
      match processRightItems matcher splitter preprocess trimmed
          comparison_cutoff session_id relationship_label rest with
      | Except.error e => Except.error e
      | Except.ok more => Except.ok (es ++ more)

/-- Embedding of `CitehoundManager.link_sets_of_entities`
(citehound/__init__.py lines 157-269). The two Cypher queries are external
store reads; the embedding receives their results `dictLEFT` / `dictRIGHT`
(key → list of entities, in row order). The method performs **no validation**
of `perc_entries_right` or `comparison_cutoff`: it trims the left-hand set
(lines 205-224) and runs the right-hand loop. The Python method returns `None`,
hence `ret := none` on success. -/
def link_sets_of_entities (matcher : String → List String → ℚ → List String)
    (splitter : String → List String) (preprocess : Option (String → String))
    (dictLEFT dictRIGHT : List (String × List E))
    (relationship_label session_id : String)
    (perc_entries_right comparison_cutoff : ℚ) :
    Except LinkError (LinkResult E) :=
  match trim_left_items dictLEFT perc_entries_right with
  | Except.error e => Except.error e
  | Except.ok trimmed =>
    match processRightItems matcher splitter preprocess trimmed
        comparison_cutoff session_id relationship_label dictRIGHT with
    | Except.error e => Except.error e
    | Except.ok edges => Except.ok ⟨edges, none⟩

/-- Modelled from the spec's words (§4.4 step 2d and §7 `UnmatchedEntityWarning`):
the number of right-hand tokens for which the matcher found zero matches above
the cutoff — the count the spec says `link` returns. The source computes no
such count (the no-match branch is `else: pass`, lines 264-267); this
definition exists only to compare the spec's claimed return value with the
embedded code's actual one. -/
def spec_unmatched_token_count (matcher : String → List String → ℚ → List String)
    (splitter : String → List String) (preprocess : Option (String → String))
    (dictLEFT : List (String × List E)) (dictRIGHT : List (String × List E))
    (perc_entries_right comparison_cutoff : ℚ) : Nat :=
  match trim_left_items dictLEFT perc_entries_right with
  | Except.error _ => 0
  | Except.ok trimmed =>
    (dictRIGHT.map (fun item =>
      let standardised :=
        match preprocess with
        | some f => f item.1
        | none => item.1
      ((collectFirst ((splitter standardised).filter
          (fun t => decide (t.length ∈ trimmed.trimmed_lengths)))).filter
        (fun t => decide (matcher t (trimmed.trimmed_items_left.map Prod.fst)
            comparison_cutoff = []))).length)).sum

/-! ## Temporal MeSH tree folding: `citehound/datainput/mesh.py`,
`MeSHLongitudinalDataItemReader.read_archive` (lines 159-235) -/

/-- Validity interval `{"from": year, "to": year-or-None}` as built by the
snapshot fold; `toY = none` means the interval is still open. -/
structure YearInterval where
  fromY : Nat
  toY : Option Nat
deriving DecidableEq

/-- One snapshot record as produced by `MeSHDataItemMemoryInsert` for one DUI:
the fields the fold reads and compares are `DescriptorUI`, `DescriptorName` and
`TreeNumberList`; the remaining descriptor fields (classes, dates, qualifier
lists, notes) are carried opaquely as `rest : ρ` — the fold only ever copies
them wholesale. -/
structure SnapRec (ρ : Type) where
  dui : String
  name : String
  treeNumbers : List String
  rest : ρ
deriving DecidableEq

/-- One entry of `current_master_tree`: the current snapshot fields plus the
three temporal fields the fold maintains, `ValidFromTo`, `Aliases` (name with
interval, in order) and `TreeNumberHistory` (tree-number → interval list, in
insertion order). -/
structure MasterRec (ρ : Type) where
  snap : SnapRec ρ
  validFromTo : YearInterval
  aliases : List (String × YearInterval)
  treeNumberHistory : List (String × List YearInterval)
deriving DecidableEq

/-- A yearly snapshot: `U.memory_storage`, a dict DUI → record, modelled as an
association list in insertion order with distinct keys. -/
def Snapshot (ρ : Type) : Type := List (String × SnapRec ρ)

/-- The running `current_master_tree`, observed only through per-DUI lookups:
modelled as a function DUI → record. The per-year update touches the added,
withdrawn and updated DUIs independently of one another, so the unspecified
Python set-iteration order is not observable here. -/
def Master (ρ : Type) : Type := String → Option (MasterRec ρ)

/-- Embedding of `set(a) != set(b)` negated (mesh.py line 195) for the
tree-number lists: mutual containment. -/
def listSetEq (a b : List String) : Bool :=
  a.all (fun x => decide (x ∈ b)) && b.all (fun x => decide (x ∈ a))

/-- Embedding of the added-DUI initialisation (mesh.py lines 174-178): the
master entry is replaced wholesale by the current snapshot record and the three
temporal fields are built fresh — `ValidFromTo = {"from": year, "to": None}`, a
one-entry alias list holding the current `DescriptorName`, and a
`TreeNumberHistory` with one open interval per current tree-number (the source
notes at line 194 that `TreeNumberList` entries are unique). -/
def freshMasterRec (year : Nat) (r : SnapRec ρ) : MasterRec ρ :=
  ⟨r, ⟨year, none⟩, [(r.name, ⟨year, none⟩)],
    r.treeNumbers.map (fun tn => (tn, [⟨year, none⟩]))⟩

/-- Applies `f` to the last element of a list — the Python idiom `l[-1]`
mutation used at mesh.py line 191 (`Aliases[-1][1]["to"] = ...`). On the empty
list Python would raise `IndexError`; every master record is created with a
non-empty alias list and aliases are only appended, so that state is
unreachable and the embedding leaves `[]` unchanged. -/
def mapLast (f : α → α) : List α → List α
  | [] => []
  | [x] => [f x]
  | x :: y :: ys => x :: mapLast f (y :: ys)

/-- Applies `f` to the value stored at key `k` of an association list (a Python
`d[k]`-in-place mutation); keys are distinct so at most one entry matches. -/
def mapAssoc [DecidableEq κ] (k : κ) (f : β → β) (l : List (κ × β)) :
    List (κ × β) :=
  l.map (fun kv => if kv.1 = k then (kv.1, f kv.2) else kv)

/-- Embedding of the removed-tree-number block (mesh.py lines 212-221) acting
on `current_master_tree[a_dui]["TreeNumberHistory"][a_treenumber_removed]`.
With exactly one historic record the code sets its end date unconditionally
(line 215) — even when that record is already closed. Otherwise it collects the
indices of the records whose `to` is `None` (line 219) and, without the error
check its own TODO at line 220 calls for, closes the **first** such record
(line 221) — `treenumber_historic_index[0]` raises a plain `IndexError`
(modelled as `none`) when no record is open; nothing in the repository raises
any temporal-consistency exception here. -/
def removeTreenumberFromHistory : List YearInterval → Nat → Option (List YearInterval)
  | [r], previous_year => some [⟨r.fromY, some previous_year⟩]
  | records, previous_year =>
    match records.findIdx? (fun r => decide (r.toY = none)) with
    | none => none
    | some i =>
      some (records.mapIdx (fun j r =>
        if j = i then ⟨r.fromY, some previous_year⟩ else r))

/-- Total wrapper used by the fold: the `none` case of
`removeTreenumberFromHistory` is Python raising `IndexError`, a state that
`read_archive` never reaches from its empty initial state (a currently-assigned
tree-number always has exactly one open record); the wrapper leaves the history
unchanged there. -/
def removeTreenumberTotal (records : List YearInterval) (previous_year : Nat) :
    List YearInterval :=
  (removeTreenumberFromHistory records previous_year).getD records

/-- Embedding of the added-tree-number block (mesh.py lines 203-209): a
tree-number never assigned before gets a fresh one-interval history, a
re-assigned one gets a new open interval appended to its historic record. -/
def addTreenumber (year : Nat) (h : List (String × List YearInterval))
    (tn : String) : List (String × List YearInterval) :=
  match assocLookup tn h with
  | none => h ++ [(tn, [⟨year, none⟩])]
  | some _ => mapAssoc tn (fun recs => recs ++ [⟨year, none⟩]) h

/-- Embedding of one removal (mesh.py lines 212-221) inside the history map:
`current_master_tree[a_dui]["TreeNumberHistory"][a_treenumber_removed]` is
looked up and rewritten in place. -/
def removeTreenumberInHistory (previous_year : Nat)
    (h : List (String × List YearInterval)) (tn : String) :
    List (String × List YearInterval) :=
  mapAssoc tn (fun recs => removeTreenumberTotal recs previous_year) h

/-- Embedding of the update branch for a DUI present in both the previous and
the current snapshot (mesh.py lines 188-224), in source order: (1) on a
`DescriptorName` change, close the open alias interval at `previous_year` (the
year of the immediately preceding snapshot file, line 191) and append the new
name with an open interval (line 192); (2) on a tree-number set change, append
open intervals for the added tree-numbers and close intervals for the removed
ones; (3) `current_master_tree[a_dui].update(U.memory_storage[a_dui])`
(line 224) overwrites all descriptor fields with the current snapshot's values,
leaving the three temporal fields as just computed. `p` is the previous year's
record, `r` the current one. -/
def updateMasterRec (previous_year year : Nat) (p r : SnapRec ρ)
    (m : MasterRec ρ) : MasterRec ρ :=
  let m1 : MasterRec ρ :=
    if r.name = p.name then m
    else ⟨m.snap, m.validFromTo,
      mapLast (fun a => (a.1, ⟨a.2.fromY, some previous_year⟩)) m.aliases
        ++ [(r.name, ⟨year, none⟩)],
      m.treeNumberHistory⟩
  let m2 : MasterRec ρ :=
    if listSetEq r.treeNumbers p.treeNumbers then m1
    else
      let tree_numbers_added := r.treeNumbers.filter (fun tn => decide (tn ∉ p.treeNumbers))
      let tree_numbers_removed := p.treeNumbers.filter (fun tn => decide (tn ∉ r.treeNumbers))
      let h1 := tree_numbers_added.foldl (addTreenumber year) m1.treeNumberHistory
      let h2 := tree_numbers_removed.foldl (removeTreenumberInHistory previous_year) h1
      ⟨m1.snap, m1.validFromTo, m1.aliases, h2⟩
  ⟨r, m2.validFromTo, m2.aliases, m2.treeNumberHistory⟩

/-- Embedding of one iteration of the file loop of `read_archive` (mesh.py
lines 171-224) as a pointwise update of the master tree. A DUI in the current
snapshot but not in the previous one is (re-)initialised wholesale
(`added_duis`, lines 174-178 — this includes DUIs returning after a
withdrawal, since `previous_year` holds only the immediately preceding
snapshot). A DUI only in the previous snapshot gets its `ValidFromTo` closed at
the previous snapshot's year (`withdrawn_duis`, lines 182-184). A DUI in both
is updated field-wise (`duis_to_update`, lines 187-224). Python would raise
`KeyError` were a withdrawn/updated DUI missing from `current_master_tree`;
every key of the running `previous_year` is in the master tree, so the
`Option.map` quotient is faithful on all reachable states. -/
def stepMaster (master : Master ρ) (previous snap : Snapshot ρ)
    (previous_year year : Nat) : Master ρ :=
  fun d =>
    match assocLookup d snap, assocLookup d previous with
    | some r, none => some (freshMasterRec year r)
    | none, some _ =>
      (master d).map (fun m =>
        ⟨m.snap, ⟨m.validFromTo.fromY, some previous_year⟩, m.aliases,
          m.treeNumberHistory⟩)
    | some r, some p => (master d).map (updateMasterRec previous_year year p r)
    | none, none => master d

/-- The file loop of `read_archive` (mesh.py lines 164-229): fold the snapshots
in file order, carrying the previous snapshot (`previous_year = copy.deepcopy(
U.memory_storage)`, line 226) and the previous file's year. -/
def foldSnapshotsAux (previous : Snapshot ρ) (master : Master ρ)
    (previous_year : Nat) : List (Nat × Snapshot ρ) → Master ρ
  | [] => master
  | (year, snap) :: rest =>
    foldSnapshotsAux snap (stepMaster master previous snap previous_year year)
      year rest

/-- Embedding of the master-tree construction of `read_archive` (mesh.py lines
162-229) over the ordered `(year, snapshot)` file list, from the initial
`previous_year = {}` and `current_master_tree = {}`. The initial
previous-year value `0` is never read: with an empty previous snapshot, the
withdrawn and updated sets are empty (Python would index
`xml_input_file_objects[-1]` only inside those loops). -/
def read_archive_fold (files : List (Nat × Snapshot ρ)) : Master ρ :=
  foldSnapshotsAux ([] : Snapshot ρ) (fun _ => none) 0 files

/-! ## Temporal tree commit: `citehound/datainput/mesh.py`,
`MeSHLongitudinalDataItemInsert.on_end_extract` (lines 266-329) -/

/-- Embedding of the reverse index `self._master_lookup` built in
`on_dataitem_extract` (mesh.py lines 258-263): a plain dict holding a key `tn`
exactly when some master-tree record's `TreeNumberHistory` mentions `tn` (the
key is initialised to `[]` and then appended to, item by item in master-tree
order), whose value lists the `(DescriptorUI, from, to)` triples of every
historic record of `tn`. Looking an absent key up — as
`self._master_lookup[specialisation_of]` does at mesh.py line 321 — raises
`KeyError`, modelled as `none`. -/
def buildMasterLookup (tree : List (String × MasterRec ρ)) :
    String → Option (List (String × Nat × Option Nat)) :=
  fun tn =>
    if tree.any (fun dm => (assocLookup tn dm.2.treeNumberHistory).isSome) then
      some (tree.foldl (fun acc dm =>
        acc ++ match assocLookup tn dm.2.treeNumberHistory with
          | none => []
          | some recs => recs.map (fun hr => (dm.2.snap.dui, hr.fromY, hr.toY)))
        [])
    else none

/-- Character-level embedding of Python `tn.split(".")` (mesh.py line 316) for
the one-character separator: cut at every dot, keeping empty segments, with
`[""]` for the empty string — exactly `str.split`'s behaviour. (Lean's own
`String.splitOn` is extensionally the same but is defined by well-founded
recursion on byte positions, which the kernel cannot evaluate; this structural
version keeps the embedding executable. The `[]` arm of the inner match is
unreachable: the result is always non-empty.) -/
def splitDots : List Char → List (List Char)
  | [] => [[]]
  | c :: rest =>
    match splitDots rest with
    | [] => [[]]
    | seg :: segs => if c = '.' then [] :: seg :: segs else (c :: seg) :: segs

/-- Character-level embedding of Python `".".join(l)` (mesh.py line 316). -/
def joinDots : List (List Char) → List Char
  | [] => []
  | [seg] => seg
  | seg :: seg2 :: rest => seg ++ '.' :: joinDots (seg2 :: rest)

/-- Embedding of `specialisation_of = ".".join(a_tree_number_edge[0].split(".")[:-1])`
(mesh.py line 316): strip the last dot-delimited segment; a root tree-number
(no dot) yields `""`. -/
def stripLastSegment (tn : String) : String :=
  ⟨joinDots ((splitDots tn.data).dropLast)⟩

/-- Embedding of Python's `x or max_year_const` on a year-or-None value
(mesh.py lines 320 and 326): `None` — and, `or` being truthiness-based, a
zero year, which never occurs in MeSH data (years are ≥ 1963) — is replaced by
the sentinel. -/
def orFalsy (v : Option Nat) (sentinel : Nat) : Nat :=
  match v with
  | none => sentinel
  | some y => if y = 0 then sentinel else y

/-- One specialisation edge as batched at mesh.py lines 323-326:
child DUI → parent DUI, carrying the tree-number and the validity bounds
(`valid_from` the child's interval start, `valid_to` its end with the sentinel
substituted for `None`). -/
structure SpecEdge where
  child_dui : String
  parent_dui : String
  tree_number : String
  valid_from : Nat
  valid_to : Nat
deriving DecidableEq

/-- Option-threaded flatMap: the shallow embedding of a Python `for` loop that
appends each element's results to an accumulator and aborts the whole pass —
discarding everything accumulated so far — as soon as one element's computation
raises (`none`). -/
def optionFlatMap (f : α → Option (List β)) : List α → Option (List β)
  | [] => some []
  | x :: rest =>
    match f x with
    | none => none
    | some es =>
      match optionFlatMap f rest with
      | none => none
      | some more => some (es ++ more)

/-- Embedding of the body of the loop over `temporal_data` (mesh.py lines
318-326) for one child interval `td`: look the parent code up in the reverse
index — `self._master_lookup[specialisation_of]` at line 321, a `KeyError`
(`none`) when no DUI ever held the parent code — then filter the entries by
interval containment, `int(temporal_data["from"]) >= int(x[1]) and
int(temporal_data["to"] or max_year_const) <= int(x[2] or max_year_const)`,
and emit one edge per surviving candidate parent. -/
def edgesForInterval (lookup : String → Option (List (String × Nat × Option Nat)))
    (max_year_const : Nat) (child_dui tn : String) (td : YearInterval) :
    Option (List SpecEdge) :=
  match lookup (stripLastSegment tn) with
  | none => none
  | some entries =>
    some ((entries.filter (fun x =>
        decide (x.2.1 ≤ td.fromY) &&
        decide (orFalsy td.toY max_year_const ≤ orFalsy x.2.2 max_year_const))).map
      (fun x => ⟨child_dui, x.1, tn, td.fromY, orFalsy td.toY max_year_const⟩))

/-- Embedding of the loop over one `TreeNumberHistory` entry (mesh.py lines
313-326): root tree-numbers — those whose parent code is the empty string —
are skipped (`if specialisation_of != ""`, line 317), so their parent code is
never looked up; the reverse-index lookup of line 321 happens per interval
inside the loop, so an empty interval list looks nothing up either. -/
def edgesForTreeNumber (lookup : String → Option (List (String × Nat × Option Nat)))
    (max_year_const : Nat) (child_dui tn : String)
    (intervals : List YearInterval) : Option (List SpecEdge) :=
  if stripLastSegment tn = "" then some []
  else optionFlatMap (edgesForInterval lookup max_year_const child_dui tn) intervals

/-- Embedding of the specialisation-edge pass of `on_end_extract` (mesh.py
lines 276-328): with `max_year_const = datetime.datetime.now().year + 1`
(line 276, here `current_year + 1`), for every master-tree node and every entry
of its `TreeNumberHistory`, batch the edges towards the candidate parents. The
result is `none` when some non-root tree-number's parent code resolves to no
reverse-index entry: the `KeyError` of line 321 propagates out of
`on_end_extract` before `batched_mesh_specialisation_edges.apply()` (line 328)
runs, so **no** specialisation edge is committed. Otherwise it is `some` of the
batched edges, in iteration order. The node iterated at line 303 carries
`dui = DescriptorUI`; the master tree is keyed by the same value
(`on_dataitem_extract`, line 257). -/
def specialisation_edges (tree : List (String × MasterRec ρ))
    (current_year : Nat) : Option (List SpecEdge) :=
  optionFlatMap (fun dm =>
    optionFlatMap (fun te =>
      edgesForTreeNumber (buildMasterLookup tree) (current_year + 1)
        dm.2.snap.dui te.1 te.2)
      dm.2.treeNumberHistory)
    tree

-- Equality of `Except` values is decidable whenever it is on both sides;
-- used to evaluate the embedded linking pass on concrete inputs.
deriving instance DecidableEq for Except

/-! ## Theorems -/

/-- C3 (`code_bug` evidence): the length-blocking step of
`link_sets_of_entities` does **not** accept every distinct length at
coverage 1.0. On the pool `{"a"}` (one key, one distinct length) the trimming
accepts no length at all and the accepted set is empty; on the pool
`{"a", "bb", "cc"}` (lengths 1 and 2) it accepts only the most frequent length
2, excluding `"a"`, so the accepted set size (2) is strictly below the pool
size (3). The claim requires the accepted subset to equal the whole pool. -/
theorem claim_C3_coverage_one_drops_last_length :
    trim_left_items [("a", ([0] : List Nat))] 1 = Except.ok ⟨[], []⟩ ∧
    trim_left_items [("a", [0]), ("bb", [1]), ("cc", ([2] : List Nat))] 1 =
      Except.ok ⟨[2], [("bb", [1]), ("cc", [2])]⟩ := by
  refine ⟨rfl, ?_⟩
  with_unfolding_all decide

/-- C4 (`code_bug` evidence): with an empty left-hand set, the linking pass
raises `IndexError` at line 212 of `citehound/__init__.py`
(`cumsum[0] = all_items_left_histogram[0][1] / max_sum` indexes an empty
histogram) for every right-hand set and every choice of the remaining
parameters, instead of emitting zero LinkEdges without error. -/
theorem claim_C4_empty_left_raises_index_error
    (matcher : String → List String → ℚ → List String)
    (splitter : String → List String) (preprocess : Option (String → String))
    (dictRIGHT : List (String × List E)) (relationship_label session_id : String)
    (perc_entries_right comparison_cutoff : ℚ) :
    link_sets_of_entities matcher splitter preprocess
      ([] : List (String × List E)) dictRIGHT relationship_label session_id
      perc_entries_right comparison_cutoff =
      Except.error LinkError.indexError := rfl

/-- C7 (`code_bug` evidence): when the removed tree-number's history does not
have exactly one open interval, the code does not flag any inconsistency. With
two open intervals it silently closes the first one and succeeds; with several
records none of which is open, it merely hits a plain `IndexError`
(`treenumber_historic_index[0]` on an empty index list, mesh.py line 221) —
no `InconsistentTemporalStateError` exists anywhere in the repository. -/
theorem claim_C7_removed_treenumber_silent_close :
    removeTreenumberFromHistory [⟨2000, none⟩, ⟨2001, none⟩] 2001 =
      some [⟨2000, some 2001⟩, ⟨2001, none⟩] ∧
    removeTreenumberFromHistory [⟨1999, some 2000⟩, ⟨1998, some 2000⟩] 2001 =
      none := by
  exact ⟨rfl, rfl⟩

/-- C1 (counterexample): snapshots of years 2000, 2001, 2002 in which DUI `D1`
holds tree-number `A01.1` in 2000, loses it in the 2001 snapshot and regains it
in 2002. The fold records `[{from 2000, to 2000}, {from 2002, to none}]` — the
first interval is closed at the **previous snapshot's year** 2000 (mesh.py
lines 215/221 use `xml_input_file_objects[a_file[0]-1]["year"]`), not at the
removal year 2001 = Y2 as the claim states. -/
theorem claim_C1_counterexample :
    ((read_archive_fold [(2000, [("D1", ⟨"D1", "N", ["A01.1"], ()⟩)]),
        (2001, [("D1", ⟨"D1", "N", [], ()⟩)]),
        (2002, [("D1", ⟨"D1", "N", ["A01.1"], ()⟩)])] : Master Unit) "D1").map
      MasterRec.treeNumberHistory =
      some [("A01.1", [⟨2000, some 2000⟩, ⟨2002, none⟩])] ∧
    ([⟨2000, some 2000⟩, ⟨2002, none⟩] : List YearInterval) ≠
      [⟨2000, some 2001⟩, ⟨2002, none⟩] := by
  exact ⟨rfl, by decide⟩

/-- C5 (counterexample): a concrete run in which exactly one right-hand token
is compared and finds no match (the matcher — standing for
`difflib.get_close_matches`, which returns `[]` when nothing reaches the 0.9
cutoff — returns no match): the pass succeeds with zero edges and the method's
return value is `none` (Python `None`), not the unmatched count 1 that the
claim says is returned and retrievable. -/
theorem claim_C5_counterexample :
    link_sets_of_entities (E := Nat) (fun _ _ _ => []) (fun s => [s]) none
        [("aa", [0]), ("bb", [1]), ("c", [2])] [("zz", [5])] "R" "S"
        (95/100) (9/10) = Except.ok ⟨[], none⟩ ∧
    spec_unmatched_token_count (E := Nat) (fun _ _ _ => []) (fun s => [s]) none
        [("aa", [0]), ("bb", [1]), ("c", [2])] [("zz", [5])]
        (95/100) (9/10) = 1 := by
  constructor
  · with_unfolding_all decide
  · with_unfolding_all decide

/-- C8 (counterexample): with `coverage = 2`, a value outside `(0, 1]`, the
linking pass does not fail fast with any `ConfigurationError` — it runs to
completion, performs its comparisons and emits a LinkEdge. (The matcher here
returns the candidates equal to the query, which is what
`difflib.get_close_matches("bb", ["bb", "cc"], cutoff=0.5)` returns.) -/
theorem claim_C8_counterexample :
    link_sets_of_entities (E := Nat)
        (fun q cs _ => cs.filter (fun c => decide (c = q)))
        (fun s => [s]) none [("a", [0]), ("bb", [1]), ("cc", [2])]
        [("bb", [9])] "R" "S" 2 (1/2) =
      Except.ok ⟨[⟨9, 1, "S", "R"⟩], none⟩ ∧
    ¬ ((2 : ℚ) ≤ 1) := by
  constructor
  · with_unfolding_all decide
  · decide

/-- Concatenating the successive `bs`-sized slices of `l` recovers the first
`m * bs` elements of `l`. -/
theorem flatten_slices (l : List α) (bs : Nat) :
    ∀ m, ((List.range m).map (fun k => (l.drop (k * bs)).take bs)).flatten =
      l.take (m * bs) := by
  intro m
  induction m with
  | zero => simp
  | succ k ih =>
    rw [List.range_succ, List.map_append, List.flatten_append, ih]
    simp [Nat.succ_mul, List.take_add]

/-- Shape of `applyBatches` for a positive chunk size and a non-empty buffer:
there are `qq + 1` chunks, the first `qq` of which are full `bs`-slices, the
last one holding the remainder, and the chunk count is tight. -/
theorem applyBatches_eq (l : List α) (bs : Nat) (hb : 0 < bs) (hl : 0 < l.length) :
    ∃ qq,
      applyBatches l bs =
        (List.range qq).map (fun k => (l.drop (k * bs)).take bs) ++ [l.drop (qq * bs)] ∧
      qq * bs < l.length ∧ l.length ≤ qq * bs + bs := by
  have hq1 : 1 ≤ (l.length + bs - 1) / bs := by
    rw [Nat.le_div_iff_mul_le hb]
    omega
  obtain ⟨qq, hqq⟩ : ∃ qq, (l.length + bs - 1) / bs = qq + 1 :=
    ⟨(l.length + bs - 1) / bs - 1, by omega⟩
  have hqn : (qq + 1) * bs ≤ l.length + bs - 1 := by
    rw [← hqq]; exact Nat.div_mul_le_self _ _
  have hlt : l.length + bs - 1 < (qq + 1 + 1) * bs := by
    rw [← Nat.div_lt_iff_lt_mul hb, hqq]; omega
  rw [Nat.add_one_mul] at hqn
  rw [Nat.add_one_mul, Nat.add_one_mul] at hlt
  have hci : chunkIndexes l.length bs =
      (List.range qq).map (fun k => k * bs) ++ [qq * bs] := by
    unfold chunkIndexes
    rw [hqq, List.range_succ, List.map_append]
    simp
  refine ⟨qq, ?_, by omega, by omega⟩
  unfold applyBatches
  rw [hci]
  simp [List.dropLast_concat, List.getLast?_concat, List.map_map, Function.comp_def]

/-- C6: flushing the batch committer partitions the buffer into chunks of at
most `batch_size` items in buffer order (every chunk but the last being exactly
`batch_size` long and none empty), commits every buffered item exactly once
(the concatenation of the committed chunks is the buffer itself, so the
committed count equals the count added since the last flush), and leaves the
internal buffer empty. -/
theorem claim_C6_flush_completeness (b : OGMTransactionBatch α)
    (h : 0 < b.batch_size) :
    (b.apply.2.batch = []) ∧
    (b.apply.1.flatten = b.batch) ∧
    (∀ c ∈ b.apply.1, c ≠ [] ∧ c.length ≤ b.batch_size) ∧
    (∀ c ∈ b.apply.1.dropLast, c.length = b.batch_size) := by
  by_cases hl : 0 < b.batch.length
  · have happ : b.apply = (applyBatches b.batch b.batch_size,
        ⟨b.batch_size, []⟩) := by
      unfold OGMTransactionBatch.apply
      rw [if_pos hl]
    obtain ⟨qq, heq, hlt, hle⟩ := applyBatches_eq b.batch b.batch_size h hl
    rw [happ]
    refine ⟨rfl, ?_, ?_, ?_⟩
    · rw [heq, List.flatten_append]
      simp [flatten_slices, List.take_append_drop]
    · intro c hc
      rw [heq] at hc
      rcases List.mem_append.mp hc with hc1 | hc2
      · obtain ⟨k, hk, rfl⟩ := List.mem_map.mp hc1
        rw [List.mem_range] at hk
        have hkb : (k + 1) * b.batch_size ≤ qq * b.batch_size :=
          Nat.mul_le_mul_right _ (by omega)
        rw [Nat.add_one_mul] at hkb
        have hlen : ((b.batch.drop (k * b.batch_size)).take b.batch_size).length =
            b.batch_size := by
          rw [List.length_take, List.length_drop]
          omega
        constructor
        · intro hnil
          rw [hnil] at hlen
          simp at hlen
          omega
        · rw [List.length_take]
          omega
      · rw [List.mem_singleton.mp hc2]
        constructor
        · intro hnil
          have hlen := congrArg List.length hnil
          rw [List.length_drop] at hlen
          simp at hlen
          omega
        · rw [List.length_drop]
          omega
    · intro c hc
      rw [heq, List.dropLast_concat] at hc
      obtain ⟨k, hk, rfl⟩ := List.mem_map.mp hc
      rw [List.mem_range] at hk
      have hkb : (k + 1) * b.batch_size ≤ qq * b.batch_size :=
        Nat.mul_le_mul_right _ (by omega)
      rw [Nat.add_one_mul] at hkb
      rw [List.length_take, List.length_drop]
      omega
  · have happ : b.apply = ([], b) := by
      unfold OGMTransactionBatch.apply
      rw [if_neg hl]
    have hnil : b.batch = [] := by
      cases hb : b.batch with
      | nil => rfl
      | cons x xs => rw [hb] at hl; simp at hl
    rw [happ]
    refine ⟨hnil, by rw [hnil]; rfl, by simp, by simp⟩

/-- C6 witness: a concrete flush of the buffer `[1,2,3,4,5]` with chunk size 2. -/
theorem claim_C6_witness :
    (0 : Nat) < (2 : Nat) ∧
    ((⟨2, [1, 2, 3, 4, 5]⟩ : OGMTransactionBatch Nat).apply.2.batch = []) ∧
    ((⟨2, [1, 2, 3, 4, 5]⟩ : OGMTransactionBatch Nat).apply.1.flatten = [1, 2, 3, 4, 5]) := by
  have h := claim_C6_flush_completeness (⟨2, [1, 2, 3, 4, 5]⟩ : OGMTransactionBatch Nat)
    (by decide)
  exact ⟨by decide, h.1, h.2.1⟩

/-- Lookup in the empty association list finds nothing. -/
theorem assocLookup_nil [DecidableEq κ] (k : κ) :
    assocLookup k ([] : List (κ × β)) = none := rfl

/-- Lookup at the key of the head entry returns the head value. -/
theorem assocLookup_cons_self [DecidableEq κ] (k : κ) (v : β) (l : List (κ × β)) :
    assocLookup k ((k, v) :: l) = some v := by
  simp [assocLookup]

/-- A key occurring among the keys of an association list has a value. -/
theorem assocLookup_mem_keys [DecidableEq κ] (x : κ) :
    ∀ l : List (κ × β), x ∈ l.map Prod.fst → ∃ v, assocLookup x l = some v := by
  intro l
  induction l with
  | nil => simp
  | cons kv t ih =>
    intro hx
    by_cases hk : kv.1 = x
    · exact ⟨kv.2, by simp [assocLookup, List.find?_cons_of_pos, hk]⟩
    · have hxt : x ∈ t.map Prod.fst := by
        rcases List.mem_cons.mp hx with h1 | h2
        · exact absurd h1.symm hk
        · exact h2
      obtain ⟨v, hv⟩ := ih hxt
      refine ⟨v, ?_⟩
      unfold assocLookup at hv ⊢
      rw [List.find?_cons_of_neg _ (by simpa using hk), hv]

/-- C9: when a DUI `d` is present (with record `r`) in the snapshot being
folded and absent from the immediately preceding snapshot, the fold
re-initialises `d`'s master entry wholesale — regardless of whatever master
state had accumulated before: `ValidFromTo` becomes `{from: year, to: None}`,
the alias list collapses to the single current name with an open interval, and
`TreeNumberHistory` is rebuilt with one fresh open interval per current
tree-number. All previously recorded validity, alias and tree-number history
is discarded (the right-hand side does not depend on `master`). -/
theorem claim_C9_readded_dui_reinitialised {ρ : Type} (previous snap : Snapshot ρ)
    (master : Master ρ) (previous_year year : Nat) (d : String) (r : SnapRec ρ)
    (hsnap : assocLookup d snap = some r)
    (hprev : assocLookup d previous = none) :
    foldSnapshotsAux previous master previous_year [(year, snap)] d =
      some ⟨r, ⟨year, none⟩, [(r.name, ⟨year, none⟩)],
        r.treeNumbers.map (fun tn => (tn, [⟨year, none⟩]))⟩ := by
  simp [foldSnapshotsAux, stepMaster, hsnap, hprev, freshMasterRec]

/-- C9 witness: a master tree already holding accumulated history for `D1`
(closed validity, an old alias, an old tree-number), a previous snapshot
without `D1`, and a current 1998 snapshot containing `D1`: the entry is
rebuilt from scratch at 1998. -/
theorem claim_C9_witness :
    (assocLookup "D1" [("D1", (⟨"D1", "N", ["A01"], ()⟩ : SnapRec Unit))] =
      some ⟨"D1", "N", ["A01"], ()⟩) ∧
    (assocLookup "D1" ([] : Snapshot Unit) = none) ∧
    foldSnapshotsAux ([] : Snapshot Unit)
      (fun _ => some ⟨⟨"D1", "Old", ["B02"], ()⟩, ⟨1990, some 1995⟩,
        [("Old", ⟨1990, some 1995⟩)], [("B02", [⟨1990, some 1995⟩])]⟩)
      1995 [(1998, [("D1", ⟨"D1", "N", ["A01"], ()⟩)])] "D1" =
      some ⟨⟨"D1", "N", ["A01"], ()⟩, ⟨1998, none⟩, [("N", ⟨1998, none⟩)],
        [("A01", [⟨1998, none⟩])]⟩ := by
  refine ⟨by decide, by decide, ?_⟩
  exact claim_C9_readded_dui_reinitialised ([] : Snapshot Unit)
    [("D1", ⟨"D1", "N", ["A01"], ()⟩)]
    (fun _ => some ⟨⟨"D1", "Old", ["B02"], ()⟩, ⟨1990, some 1995⟩,
      [("Old", ⟨1990, some 1995⟩)], [("B02", [⟨1990, some 1995⟩])]⟩)
    1995 1998 "D1" ⟨"D1", "N", ["A01"], ()⟩ (by decide) (by decide)

/-- C1 (amended): for ascending snapshot years `Y1 < Y2 < Y3` in which a DUI
holds tree-number `tn` at `Y1`, loses it in the `Y2` snapshot and regains it at
`Y3`, the fold produces the two-entry interval list
`[{from Y1, to Y1}, {from Y3, to none}]`: the first interval is closed at the
year of the snapshot immediately preceding the removal snapshot (here `Y1`),
not at the removal year `Y2`. -/
theorem claim_C1_rebranch_closes_at_previous_snapshot_year {ρ : Type}
    (Y1 Y2 Y3 : Nat) (_h12 : Y1 < Y2) (_h23 : Y2 < Y3) (d nm tn : String) (r0 : ρ) :
    ((read_archive_fold
        [(Y1, [(d, ⟨d, nm, [tn], r0⟩)]),
         (Y2, [(d, ⟨d, nm, [], r0⟩)]),
         (Y3, [(d, ⟨d, nm, [tn], r0⟩)])]) d).map MasterRec.treeNumberHistory =
      some [(tn, [⟨Y1, some Y1⟩, ⟨Y3, none⟩])] := by
  simp [read_archive_fold, foldSnapshotsAux, stepMaster, assocLookup,
    freshMasterRec, updateMasterRec, listSetEq, addTreenumber,
    removeTreenumberInHistory, removeTreenumberTotal,
    removeTreenumberFromHistory, mapAssoc, mapLast]

/-- C1 witness for the amended statement, at years 2000 < 2001 < 2002. -/
theorem claim_C1_amended_witness :
    ((2000 : Nat) < 2001 ∧ (2001 : Nat) < 2002) ∧
    ((read_archive_fold
        [(2000, [("D0", (⟨"D0", "N", ["A01.1"], ()⟩ : SnapRec Unit))]),
         (2001, [("D0", ⟨"D0", "N", [], ()⟩)]),
         (2002, [("D0", ⟨"D0", "N", ["A01.1"], ()⟩)])]) "D0").map
      MasterRec.treeNumberHistory =
      some [("A01.1", [⟨2000, some 2000⟩, ⟨2002, none⟩])] :=
  ⟨⟨by decide, by decide⟩,
    claim_C1_rebranch_closes_at_previous_snapshot_year 2000 2001 2002
      (by decide) (by decide) "D0" "N" "A01.1" ()⟩

/-- Folding the set-collection step never shortens the accumulator. -/
theorem collectFirst_foldl_length_le [DecidableEq β] :
    ∀ (l acc : List β), acc.length ≤
      (List.foldl (fun acc x => if x ∈ acc then acc else acc ++ [x]) acc l).length := by
  intro l
  induction l with
  | nil => intro acc; simp
  | cons y ys ih =>
    intro acc
    rw [List.foldl_cons]
    refine le_trans ?_ (ih _)
    split
    · exact le_refl _
    · simp

/-- The set-collection of a non-empty list is non-empty. -/
theorem collectFirst_ne_nil [DecidableEq β] (l : List β) (h : l ≠ []) :
    collectFirst l ≠ [] := by
  cases l with
  | nil => exact absurd rfl h
  | cons x t =>
    unfold collectFirst
    rw [List.foldl_cons]
    have hstep : (if x ∈ ([] : List β) then ([] : List β) else [] ++ [x]) = [x] := by
      simp
    rw [hstep]
    intro hnil
    have hle := collectFirst_foldl_length_le t [x]
    rw [hnil] at hle
    simp at hle

/-- Inserting into the descending-sorted histogram never yields the empty list. -/
theorem insertDesc_ne_nil (x : Nat × Nat) (l : List (Nat × Nat)) :
    insertDesc x l ≠ [] := by
  cases l with
  | nil => simp [insertDesc]
  | cons y ys =>
    unfold insertDesc
    split <;> simp

/-- Folding stable insertion from a non-empty accumulator stays non-empty. -/
theorem foldl_insertDesc_ne_nil :
    ∀ (t acc : List (Nat × Nat)), acc ≠ [] →
      List.foldl (fun acc x => insertDesc x acc) acc t ≠ [] := by
  intro t
  induction t with
  | nil => intro acc hacc; exact hacc
  | cons y ys ih =>
    intro acc _
    rw [List.foldl_cons]
    exact ih _ (insertDesc_ne_nil _ _)

/-- Sorting a non-empty histogram yields a non-empty histogram. -/
theorem sortHistogram_ne_nil (h : List (Nat × Nat)) (hne : h ≠ []) :
    sortHistogram h ≠ [] := by
  cases h with
  | nil => exact absurd rfl hne
  | cons a t =>
    unfold sortHistogram
    rw [List.foldl_cons]
    exact foldl_insertDesc_ne_nil t (insertDesc a []) (insertDesc_ne_nil _ _)

/-- The length histogram of a non-empty pool is non-empty. -/
theorem lengthHistogram_ne_nil (items : List String) (h : items ≠ []) :
    lengthHistogram items ≠ [] := by
  simp only [lengthHistogram]
  intro hnil
  rw [List.map_eq_nil_iff] at hnil
  exact collectFirst_ne_nil _ (by simp [h]) hnil

/-- On a non-empty left-hand set the trimming step succeeds (line 212 is only
reached with a non-empty histogram). -/
theorem trim_left_items_isOk (dictLEFT : List (String × V)) (perc : ℚ)
    (h : dictLEFT ≠ []) :
    ∃ t, trim_left_items dictLEFT perc = Except.ok t := by
  have hh : sortHistogram (lengthHistogram (dictLEFT.map Prod.fst)) ≠ [] :=
    sortHistogram_ne_nil _ (lengthHistogram_ne_nil _ (by simp [h]))
  simp only [trim_left_items]
  cases hcase : sortHistogram (lengthHistogram (dictLEFT.map Prod.fst)) with
  | nil => exact absurd hcase hh
  | cons a t => exact ⟨_, rfl⟩

/-- A single token comparison succeeds whenever the cutoff is within difflib's
accepted range and the matcher only returns members of its candidate pool. -/
theorem compareToken_isOk (matcher : String → List String → ℚ → List String)
    (trimmed : TrimResult (List E)) (cutoff : ℚ) (sid rl : String)
    (right_entities : List E) (token : String)
    (h0 : 0 ≤ cutoff) (h1 : cutoff ≤ 1)
    (hm : ∀ x ∈ matcher token (trimmed.trimmed_items_left.map Prod.fst) cutoff,
      x ∈ trimmed.trimmed_items_left.map Prod.fst) :
    ∃ es, compareToken matcher trimmed cutoff sid rl right_entities token =
      Except.ok es := by
  unfold compareToken
  rw [if_neg (not_not_intro ⟨h0, h1⟩)]
  cases hm2 : matcher token (trimmed.trimmed_items_left.map Prod.fst) cutoff with
  | nil => exact ⟨[], rfl⟩
  | cons best rest =>
    have hbest : best ∈ trimmed.trimmed_items_left.map Prod.fst := by
      refine hm best ?_
      rw [hm2]
      simp
    obtain ⟨v, hv⟩ := assocLookup_mem_keys best _ hbest
    refine ⟨(right_entities.map (fun r => v.map (fun l =>
      (⟨r, l, sid, rl⟩ : LinkEdge E)))).flatten, ?_⟩
    simp only [hv]

/-- Token-loop counterpart of `compareToken_isOk`. -/
theorem processTokens_isOk (matcher : String → List String → ℚ → List String)
    (trimmed : TrimResult (List E)) (cutoff : ℚ) (sid rl : String)
    (right_entities : List E)
    (h0 : 0 ≤ cutoff) (h1 : cutoff ≤ 1)
    (hm : ∀ q cs r x, x ∈ matcher q cs r → x ∈ cs) :
    ∀ tokens, ∃ es, processTokens matcher trimmed cutoff sid rl right_entities
      tokens = Except.ok es := by
  intro tokens
  induction tokens with
  | nil => exact ⟨[], rfl⟩
  | cons t ts ih =>
    obtain ⟨es, hes⟩ := compareToken_isOk matcher trimmed cutoff sid rl
      right_entities t h0 h1 (fun x hx => hm _ _ _ x hx)
    obtain ⟨more, hmore⟩ := ih
    refine ⟨es ++ more, ?_⟩
    unfold processTokens
    rw [hes, hmore]

/-- Right-hand-loop counterpart of `compareToken_isOk`. -/
theorem processRightItems_isOk (matcher : String → List String → ℚ → List String)
    (splitter : String → List String) (preprocess : Option (String → String))
    (trimmed : TrimResult (List E)) (cutoff : ℚ) (sid rl : String)
    (h0 : 0 ≤ cutoff) (h1 : cutoff ≤ 1)
    (hm : ∀ q cs r x, x ∈ matcher q cs r → x ∈ cs) :
    ∀ items, ∃ es, processRightItems matcher splitter preprocess trimmed cutoff
      sid rl items = Except.ok es := by
  intro items
  induction items with
  | nil => exact ⟨[], rfl⟩
  | cons item rest ih =>
    obtain ⟨rk, rv⟩ := item
    obtain ⟨more, hmore⟩ := ih
    simp only [processRightItems]
    cases preprocess with
    | none =>
      obtain ⟨es, hes⟩ := processTokens_isOk matcher trimmed cutoff sid rl rv
        h0 h1 hm (collectFirst ((splitter rk).filter
          (fun t => decide (t.length ∈ trimmed.trimmed_lengths))))
      rw [hes, hmore]
      exact ⟨es ++ more, rfl⟩
    | some f =>
      obtain ⟨es, hes⟩ := processTokens_isOk matcher trimmed cutoff sid rl rv
        h0 h1 hm (collectFirst ((splitter (f rk)).filter
          (fun t => decide (t.length ∈ trimmed.trimmed_lengths))))
      rw [hes, hmore]
      exact ⟨es ++ more, rfl⟩

/-- C8 (amended): the linking pass performs no validation of its tunables and
no `ConfigurationError` exists in the repository. For **any** coverage value
whatsoever — in particular any value outside `(0, 1]` — and any cutoff within
difflib's accepted `[0, 1]` range, a run over a non-empty left-hand set
completes without raising (for a matcher that, like
`difflib.get_close_matches`, only returns members of its candidate pool); an
out-of-range cutoff surfaces only as difflib's `ValueError` at comparison time,
after the store queries, never as a fail-fast configuration check. -/
theorem claim_C8_no_tunable_validation
    (matcher : String → List String → ℚ → List String)
    (splitter : String → List String) (preprocess : Option (String → String))
    (dictLEFT dictRIGHT : List (String × List E)) (rl sid : String)
    (perc cutoff : ℚ)
    (hleft : dictLEFT ≠ []) (h0 : 0 ≤ cutoff) (h1 : cutoff ≤ 1)
    (hm : ∀ q cs r x, x ∈ matcher q cs r → x ∈ cs) :
    ∃ res, link_sets_of_entities matcher splitter preprocess dictLEFT dictRIGHT
      rl sid perc cutoff = Except.ok res := by
  obtain ⟨t, ht⟩ := trim_left_items_isOk dictLEFT perc hleft
  obtain ⟨es, hes⟩ := processRightItems_isOk matcher splitter preprocess t
    cutoff sid rl h0 h1 hm dictRIGHT
  refine ⟨⟨es, none⟩, ?_⟩
  simp only [link_sets_of_entities, ht, hes]

/-- C8 witness: coverage 5 (far outside `(0, 1]`) and cutoff 0, on a one-entry
left-hand set: the pass completes without error. -/
theorem claim_C8_witness :
    ([("a", [(0 : Nat)])] ≠ ([] : List (String × List Nat))) ∧
    ((0 : ℚ) ≤ 0 ∧ (0 : ℚ) ≤ 1) ∧
    ∃ res, link_sets_of_entities (E := Nat) (fun _ _ _ => []) (fun s => [s])
      none [("a", [0])] [("b", [1])] "R" "S" 5 0 = Except.ok res := by
  refine ⟨by decide, ⟨by decide, by decide⟩, ?_⟩
  exact claim_C8_no_tunable_validation (fun _ _ _ => []) (fun s => [s]) none
    [("a", [0])] [("b", [1])] "R" "S" 5 0 (by decide) (by decide) (by decide)
    (by simp)

/-- With the always-empty matcher, every token comparison lands in the
`else: pass` branch and yields no edges. -/
theorem processTokens_matcher_nil (trimmed : TrimResult (List E)) (cutoff : ℚ)
    (sid rl : String) (rv : List E) (h0 : 0 ≤ cutoff) (h1 : cutoff ≤ 1) :
    ∀ tokens, processTokens (fun _ _ _ => []) trimmed cutoff sid rl rv tokens =
      Except.ok [] := by
  intro tokens
  induction tokens with
  | nil => rfl
  | cons t ts ih =>
    have hif : (if ¬(0 ≤ cutoff ∧ cutoff ≤ 1) then
        Except.error LinkError.valueError
        else Except.ok ([] : List (LinkEdge E))) = Except.ok [] :=
      if_neg (not_not_intro ⟨h0, h1⟩)
    simp only [processTokens, compareToken, hif, ih, List.nil_append]

/-- With the always-empty matcher, the whole right-hand loop emits no edges. -/
theorem processRightItems_matcher_nil (splitter : String → List String)
    (preprocess : Option (String → String)) (trimmed : TrimResult (List E))
    (cutoff : ℚ) (sid rl : String) (h0 : 0 ≤ cutoff) (h1 : cutoff ≤ 1) :
    ∀ items, processRightItems (fun _ _ _ => []) splitter preprocess trimmed
      cutoff sid rl items = Except.ok [] := by
  intro items
  induction items with
  | nil => rfl
  | cons item rest ih =>
    obtain ⟨rk, rv⟩ := item
    simp only [processRightItems,
      processTokens_matcher_nil trimmed cutoff sid rl rv h0 h1, ih,
      List.nil_append]

/-- C5 (amended): the linking pass silently discards unmatched right-hand
tokens. First conjunct: whatever the inputs, a successful run's return value is
`none` — Python's `link_sets_of_entities` has no `return` statement, so no
unmatched count (nor anything else) is ever returned or retrievable from it.
Second conjunct: when every comparison finds zero matches (the matcher always
returns `[]`), no edge at all is emitted and the run still returns `none`
rather than the number of unmatched tokens. -/
theorem claim_C5_unmatched_tokens_silently_discarded :
    (∀ (E : Type) (matcher : String → List String → ℚ → List String)
      (splitter : String → List String) (preprocess : Option (String → String))
      (dictLEFT dictRIGHT : List (String × List E)) (rl sid : String)
      (perc cutoff : ℚ) (res : LinkResult E),
      link_sets_of_entities matcher splitter preprocess dictLEFT dictRIGHT rl
        sid perc cutoff = Except.ok res → res.ret = none) ∧
    (∀ (E : Type) (splitter : String → List String)
      (preprocess : Option (String → String))
      (dictLEFT dictRIGHT : List (String × List E)) (rl sid : String)
      (perc cutoff : ℚ),
      dictLEFT ≠ [] → 0 ≤ cutoff → cutoff ≤ 1 →
      link_sets_of_entities (fun _ _ _ => []) splitter preprocess dictLEFT
        dictRIGHT rl sid perc cutoff = Except.ok ⟨[], none⟩) := by
  constructor
  · intro E matcher splitter preprocess dictLEFT dictRIGHT rl sid perc cutoff
      res hres
    simp only [link_sets_of_entities] at hres
    rcases htr : trim_left_items dictLEFT perc with e | t <;>
      simp only [htr] at hres
    · exact absurd hres (by simp)
    · rcases hpr : processRightItems matcher splitter preprocess t cutoff sid
          rl dictRIGHT with e | es <;> simp only [hpr] at hres
      · exact absurd hres (by simp)
      · injection hres with h
        rw [← h]
  · intro E splitter preprocess dictLEFT dictRIGHT rl sid perc cutoff hleft h0 h1
    obtain ⟨t, ht⟩ := trim_left_items_isOk dictLEFT perc hleft
    simp only [link_sets_of_entities, ht,
      processRightItems_matcher_nil splitter preprocess t cutoff sid rl h0 h1]

/-- C5 witness for the amended statement: a run with an always-unmatched
matcher yields zero edges and the return value `none`. -/
theorem claim_C5_witness :
    ([("a", [(0 : Nat)])] ≠ ([] : List (String × List Nat))) ∧
    link_sets_of_entities (E := Nat) (fun _ _ _ => []) (fun s => [s]) none
      [("a", [0])] [("b", [1])] "R" "S" 1 0 = Except.ok ⟨[], none⟩ := by
  refine ⟨by decide, ?_⟩
  exact claim_C5_unmatched_tokens_silently_discarded.2 Nat (fun s => [s]) none
    [("a", [0])] [("b", [1])] "R" "S" 1 0 (by decide) (by decide) (by decide)

/-- Folding the set-collection step over elements all equal to `c`, starting
from `[c]`, stays at `[c]`. -/
theorem collectFirst_step_const [DecidableEq β] (c : β) :
    ∀ t : List β, (∀ x ∈ t, x = c) →
      List.foldl (fun acc x => if x ∈ acc then acc else acc ++ [x]) [c] t = [c] := by
  intro t
  induction t with
  | nil => intro _; rfl
  | cons y ys ih =>
    intro ha
    rw [List.foldl_cons]
    have hy : y = c := ha y (by simp)
    have hstep : (if y ∈ [c] then [c] else [c] ++ [y]) = [c] := by simp [hy]
    rw [hstep]
    exact ih (fun x hx => ha x (List.mem_cons_of_mem _ hx))

/-- The set-collection of a non-empty list whose elements all equal `c` is the
singleton `[c]`. -/
theorem collectFirst_all_eq [DecidableEq β] (l : List β) (c : β) (h : l ≠ [])
    (ha : ∀ x ∈ l, x = c) : collectFirst l = [c] := by
  cases l with
  | nil => exact absurd rfl h
  | cons x t =>
    have hx : x = c := ha x (by simp)
    unfold collectFirst
    rw [List.foldl_cons]
    have hstep : (if x ∈ ([] : List β) then ([] : List β) else [] ++ [x]) = [c] := by
      simp [hx]
    rw [hstep]
    exact collectFirst_step_const c t (fun y hy => ha y (List.mem_cons_of_mem _ hy))

/-- When every left-hand key has the same length the histogram is a singleton,
`cumsum_len` is 0, the `while` loop guard `m < cumsum_len` is false at once, so
`all_items_left_histogram[:0]` retains no length and no left-hand entry. -/
theorem trim_left_items_single_length (dictLEFT : List (String × V)) (L : Nat)
    (perc : ℚ) (h : dictLEFT ≠ []) (ha : ∀ kv ∈ dictLEFT, kv.1.length = L) :
    trim_left_items dictLEFT perc = Except.ok ⟨[], []⟩ := by
  have hcl : collectFirst ((dictLEFT.map Prod.fst).map String.length) = [L] := by
    apply collectFirst_all_eq
    · simp [h]
    · intro x hx
      rw [List.map_map] at hx
      obtain ⟨kv, hkv, rfl⟩ := List.mem_map.mp hx
      exact ha kv hkv
  have hhist : lengthHistogram (dictLEFT.map Prod.fst) =
      [(L, ((dictLEFT.map Prod.fst).map String.length).count L)] := by
    simp only [lengthHistogram, hcl, List.map_cons, List.map_nil]
  simp [trim_left_items, hhist, sortHistogram, insertDesc, cumsumFrom, loopM]

/-- C10: for a non-empty left-hand set whose keys all share one string length,
and any coverage in `(0, 1]`, the trimming step accepts no length and no
left-hand entry, so the linking pass performs no comparison at all (any matcher
and cutoff give the same outcome) and emits zero edges, whatever the right-hand
set. -/
theorem claim_C10_uniform_left_length_yields_no_edges
    (matcher : String → List String → ℚ → List String)
    (splitter : String → List String) (preprocess : Option (String → String))
    (dictLEFT dictRIGHT : List (String × List E)) (L : Nat) (rl sid : String)
    (perc cutoff : ℚ)
    (h : dictLEFT ≠ []) (ha : ∀ kv ∈ dictLEFT, kv.1.length = L)
    (_hp0 : 0 < perc) (_hp1 : perc ≤ 1) :
    trim_left_items dictLEFT perc = Except.ok ⟨[], []⟩ ∧
    link_sets_of_entities matcher splitter preprocess dictLEFT dictRIGHT rl sid
      perc cutoff = Except.ok ⟨[], none⟩ := by
  have ht := trim_left_items_single_length dictLEFT L perc h ha
  refine ⟨ht, ?_⟩
  have hpr : ∀ items : List (String × List E),
      processRightItems matcher splitter preprocess ⟨[], []⟩ cutoff sid rl
        items = Except.ok [] := by
    intro items
    induction items with
    | nil => rfl
    | cons item rest ih =>
      obtain ⟨rk, rv⟩ := item
      have hf : ∀ lt : List String,
          lt.filter (fun t => decide (t.length ∈ ([] : List Nat))) = [] := by
        intro lt
        simp
      simp [processRightItems, hf, ih, processTokens, collectFirst]
  simp only [link_sets_of_entities, ht, hpr]

/-- C10 witness: both left keys have length 2, coverage 1; even a right-hand
key equal to a left key produces no edge because the accepted length set is
empty. -/
theorem claim_C10_witness :
    (([("aa", [(0 : Nat)]), ("bb", [1])] : List (String × List Nat)) ≠ [] ∧
      (0 : ℚ) < 1 ∧ (1 : ℚ) ≤ 1) ∧
    trim_left_items [("aa", [(0 : Nat)]), ("bb", [1])] 1 = Except.ok ⟨[], []⟩ ∧
    link_sets_of_entities (E := Nat)
      (fun q cs _ => cs.filter (fun c => decide (c = q))) (fun s => [s]) none
      [("aa", [0]), ("bb", [1])] [("aa", [7])] "R" "S" 1 1 =
      Except.ok ⟨[], none⟩ := by
  refine ⟨⟨by decide, by decide, by decide⟩, ?_⟩
  exact claim_C10_uniform_left_length_yields_no_edges
    (fun q cs _ => cs.filter (fun c => decide (c = q))) (fun s => [s]) none
    [("aa", [0]), ("bb", [1])] [("aa", [7])] 2 "R" "S" 1 1 (by decide)
    (by decide) (by decide) (by decide)


/-- Every element of a list traversed by a successful `optionFlatMap` run
succeeded itself. -/
theorem optionFlatMap_some_of_mem (f : α → Option (List β)) :
    ∀ (l : List α) (res : List β), optionFlatMap f l = some res →
      ∀ x ∈ l, ∃ es, f x = some es := by
  intro l
  induction l with
  | nil =>
    intro res _ x hx
    simp at hx
  | cons y ys ih =>
    intro res h x hx
    simp only [optionFlatMap] at h
    cases hf : f y with
    | none =>
      simp only [hf] at h
      exact Option.noConfusion h
    | some es =>
      simp only [hf] at h
      cases hr : optionFlatMap f ys with
      | none =>
        simp only [hr] at h
        exact Option.noConfusion h
      | some more =>
        rcases List.mem_cons.mp hx with rfl | hx2
        · exact ⟨es, hf⟩
        · exact ih more hr x hx2

/-- Membership characterisation of a successful `optionFlatMap` run. -/
theorem mem_optionFlatMap (f : α → Option (List β)) :
    ∀ (l : List α) (res : List β), optionFlatMap f l = some res →
      ∀ e, (e ∈ res ↔ ∃ x ∈ l, ∃ es, f x = some es ∧ e ∈ es) := by
  intro l
  induction l with
  | nil =>
    intro res h e
    simp only [optionFlatMap, Option.some.injEq] at h
    subst h
    simp
  | cons y ys ih =>
    intro res h e
    simp only [optionFlatMap] at h
    cases hf : f y with
    | none =>
      simp only [hf] at h
      exact Option.noConfusion h
    | some es =>
      simp only [hf] at h
      cases hr : optionFlatMap f ys with
      | none =>
        simp only [hr] at h
        exact Option.noConfusion h
      | some more =>
        simp only [hr, Option.some.injEq] at h
        subst h
        constructor
        · intro he
          rcases List.mem_append.mp he with he1 | he2
          · exact ⟨y, List.mem_cons_self y ys, es, hf, he1⟩
          · obtain ⟨x, hx, es2, hfx, he3⟩ := (ih more hr e).mp he2
            exact ⟨x, List.mem_cons_of_mem y hx, es2, hfx, he3⟩
        · rintro ⟨x, hx, es2, hfx, he3⟩
          rcases List.mem_cons.mp hx with rfl | hx2
          · rw [hf] at hfx
            injection hfx with hfx
            subst hfx
            exact List.mem_append.mpr (Or.inl he3)
          · exact List.mem_append.mpr
              (Or.inr ((ih more hr e).mpr ⟨x, hx2, es2, hfx, he3⟩))

/-- Membership in the edges generated for one child interval, given that the
reverse-index lookup of the parent code succeeded. -/
theorem mem_edgesForInterval
    (lookup : String → Option (List (String × Nat × Option Nat)))
    (maxY : Nat) (child tn : String) (td : YearInterval) (es : List SpecEdge)
    (h : edgesForInterval lookup maxY child tn td = some es) (e : SpecEdge) :
    e ∈ es ↔ ∃ entries, lookup (stripLastSegment tn) = some entries ∧
      ∃ x ∈ entries, x.2.1 ≤ td.fromY ∧
        orFalsy td.toY maxY ≤ orFalsy x.2.2 maxY ∧
        (⟨child, x.1, tn, td.fromY, orFalsy td.toY maxY⟩ : SpecEdge) = e := by
  unfold edgesForInterval at h
  cases hl : lookup (stripLastSegment tn) with
  | none =>
    simp only [hl] at h
    exact Option.noConfusion h
  | some entries =>
    simp only [hl, Option.some.injEq] at h
    subst h
    constructor
    · intro he
      simp only [List.mem_map, List.mem_filter, Bool.and_eq_true,
        decide_eq_true_eq] at he
      obtain ⟨x, ⟨hx, hc1, hc2⟩, hmk⟩ := he
      exact ⟨entries, rfl, x, hx, hc1, hc2, hmk⟩
    · rintro ⟨entries2, hl2, x, hx, hc1, hc2, hmk⟩
      injection hl2 with hl2
      subst hl2
      simp only [List.mem_map, List.mem_filter, Bool.and_eq_true,
        decide_eq_true_eq]
      exact ⟨x, ⟨hx, hc1, hc2⟩, hmk⟩

/-- Membership in the edges generated for one `TreeNumberHistory` entry, given
that its processing succeeded: the root guard must pass and some historic
interval together with some reverse-index entry of the parent code must
satisfy the containment filter. -/
theorem mem_edgesForTreeNumber
    (lookup : String → Option (List (String × Nat × Option Nat)))
    (maxY : Nat) (child tn : String) (intervals : List YearInterval)
    (es : List SpecEdge)
    (h : edgesForTreeNumber lookup maxY child tn intervals = some es)
    (e : SpecEdge) :
    e ∈ es ↔ stripLastSegment tn ≠ "" ∧
      ∃ td ∈ intervals, ∃ entries,
        lookup (stripLastSegment tn) = some entries ∧
        ∃ x ∈ entries, x.2.1 ≤ td.fromY ∧
          orFalsy td.toY maxY ≤ orFalsy x.2.2 maxY ∧
          (⟨child, x.1, tn, td.fromY, orFalsy td.toY maxY⟩ : SpecEdge) = e := by
  unfold edgesForTreeNumber at h
  by_cases hroot : stripLastSegment tn = ""
  · rw [if_pos hroot] at h
    injection h with h
    subst h
    simp [hroot]
  · rw [if_neg hroot] at h
    rw [mem_optionFlatMap _ intervals es h e]
    simp only [ne_eq, hroot, not_false_iff, true_and]
    constructor
    · rintro ⟨td, htd, es2, hes2, he2⟩
      rw [mem_edgesForInterval lookup maxY child tn td es2 hes2 e] at he2
      obtain ⟨entries, hl, x, hx, hc1, hc2, hmk⟩ := he2
      exact ⟨td, htd, entries, hl, x, hx, hc1, hc2, hmk⟩
    · rintro ⟨td, htd, entries, hl, x, hx, hc1, hc2, hmk⟩
      have hsome : edgesForInterval lookup maxY child tn td =
          some ((entries.filter (fun x =>
            decide (x.2.1 ≤ td.fromY) &&
            decide (orFalsy td.toY maxY ≤ orFalsy x.2.2 maxY))).map
          (fun x => ⟨child, x.1, tn, td.fromY, orFalsy td.toY maxY⟩)) := by
        unfold edgesForInterval
        rw [hl]
      refine ⟨td, htd, _, hsome, ?_⟩
      rw [mem_edgesForInterval lookup maxY child tn td _ hsome e]
      exact ⟨entries, hl, x, hx, hc1, hc2, hmk⟩

/-- C2: for every run of the temporal-tree commit that completes — that is,
whenever `specialisation_edges` returns `some edges` rather than aborting with
the `KeyError` of mesh.py line 321 on a non-root tree-number whose parent code
is in no DUI's `TreeNumberHistory` (an abort commits no edge at all) — an edge
is batched exactly when it connects a master-tree node, through one of its
tree-numbers `te.1` that is **not** a root (stripping the last dot-delimited
segment leaves a non-empty parent code), and one of that tree-number's validity
intervals `td`, to a reverse-index entry `x` of the parent code whose own
validity interval contains the child interval: `child.from ≥ parent.from` and
`child.to ≤ parent.to`, where the sentinel `current_year + 1` stands in for
open (`None`) ends; the edge carries the child DUI, the candidate parent DUI,
the tree-number and the child validity bounds with the same sentinel
substitution. -/
theorem claim_C2_parent_edges_characterised {ρ : Type}
    (tree : List (String × MasterRec ρ)) (current_year : Nat)
    (edges : List SpecEdge)
    (hok : specialisation_edges tree current_year = some edges) (e : SpecEdge) :
    e ∈ edges ↔
      ∃ dm ∈ tree, ∃ te ∈ dm.2.treeNumberHistory,
        stripLastSegment te.1 ≠ "" ∧
        ∃ td ∈ te.2, ∃ entries,
          buildMasterLookup tree (stripLastSegment te.1) = some entries ∧
          ∃ x ∈ entries,
            x.2.1 ≤ td.fromY ∧
            orFalsy td.toY (current_year + 1) ≤ orFalsy x.2.2 (current_year + 1) ∧
            (⟨dm.2.snap.dui, x.1, te.1, td.fromY,
              orFalsy td.toY (current_year + 1)⟩ : SpecEdge) = e := by
  unfold specialisation_edges at hok
  rw [mem_optionFlatMap _ tree edges hok e]
  constructor
  · rintro ⟨dm, hdm, es1, hes1, he1⟩
    rw [mem_optionFlatMap _ _ es1 hes1 e] at he1
    obtain ⟨te, hte, es2, hes2, he2⟩ := he1
    rw [mem_edgesForTreeNumber _ _ _ _ _ _ hes2 e] at he2
    obtain ⟨hroot, td, htd, entries, hl, x, hx, hc1, hc2, hmk⟩ := he2
    exact ⟨dm, hdm, te, hte, hroot, td, htd, entries, hl, x, hx, hc1, hc2, hmk⟩
  · rintro ⟨dm, hdm, te, hte, hroot, td, htd, entries, hl, x, hx, hc1, hc2, hmk⟩
    obtain ⟨es1, hes1⟩ := optionFlatMap_some_of_mem _ tree edges hok dm hdm
    obtain ⟨es2, hes2⟩ := optionFlatMap_some_of_mem _ _ es1 hes1 te hte
    refine ⟨dm, hdm, es1, hes1, ?_⟩
    rw [mem_optionFlatMap _ _ es1 hes1 e]
    refine ⟨te, hte, es2, hes2, ?_⟩
    rw [mem_edgesForTreeNumber _ _ _ _ _ _ hes2 e]
    exact ⟨hroot, td, htd, entries, hl, x, hx, hc1, hc2, hmk⟩

/-- C2 witness: a two-node master tree in which `D2` holds the root code `A01`
and `D1` holds `A01.1`; the commit completes (every non-root parent code
resolves) with exactly the edge `D1 → D2` carrying `A01.1`, valid 2005 to the
sentinel 2021, and the characterisation is exercised at that edge. -/
theorem claim_C2_witness :
    (⟨"D1", "D2", "A01.1", 2005, 2021⟩ : SpecEdge) ∈
        [(⟨"D1", "D2", "A01.1", 2005, 2021⟩ : SpecEdge)] ↔
      ∃ dm ∈ ([("D2", ⟨⟨"D2", "Parent", ["A01"], ()⟩, ⟨2000, none⟩,
            [("Parent", ⟨2000, none⟩)], [("A01", [⟨2000, none⟩])]⟩),
          ("D1", ⟨⟨"D1", "Child", ["A01.1"], ()⟩, ⟨2005, none⟩,
            [("Child", ⟨2005, none⟩)], [("A01.1", [⟨2005, none⟩])]⟩)] :
          List (String × MasterRec Unit)),
        ∃ te ∈ dm.2.treeNumberHistory,
          stripLastSegment te.1 ≠ "" ∧
          ∃ td ∈ te.2, ∃ entries,
            buildMasterLookup
              ([("D2", ⟨⟨"D2", "Parent", ["A01"], ()⟩, ⟨2000, none⟩,
                  [("Parent", ⟨2000, none⟩)], [("A01", [⟨2000, none⟩])]⟩),
                ("D1", ⟨⟨"D1", "Child", ["A01.1"], ()⟩, ⟨2005, none⟩,
                  [("Child", ⟨2005, none⟩)], [("A01.1", [⟨2005, none⟩])]⟩)] :
                List (String × MasterRec Unit))
              (stripLastSegment te.1) = some entries ∧
            ∃ x ∈ entries,
              x.2.1 ≤ td.fromY ∧
              orFalsy td.toY (2020 + 1) ≤ orFalsy x.2.2 (2020 + 1) ∧
              (⟨dm.2.snap.dui, x.1, te.1, td.fromY,
                orFalsy td.toY (2020 + 1)⟩ : SpecEdge) =
                ⟨"D1", "D2", "A01.1", 2005, 2021⟩ :=
  claim_C2_parent_edges_characterised
    [("D2", ⟨⟨"D2", "Parent", ["A01"], ()⟩, ⟨2000, none⟩,
        [("Parent", ⟨2000, none⟩)], [("A01", [⟨2000, none⟩])]⟩),
     ("D1", ⟨⟨"D1", "Child", ["A01.1"], ()⟩, ⟨2005, none⟩,
        [("Child", ⟨2005, none⟩)], [("A01.1", [⟨2005, none⟩])]⟩)]
    2020 [⟨"D1", "D2", "A01.1", 2005, 2021⟩] (by decide)
    ⟨"D1", "D2", "A01.1", 2005, 2021⟩
